import Mathlib

/-
Verification of the raycasting core of the Damonenheil repository.

The embedding follows the JavaScript source:
  - js/level.js   (Level: map data, hasCollision, getTileValue)
  - js/ray.js     (Ray.cast: the two DDA marches, distance selection,
                   sentinel handling, depth-buffer write; renderWallStrip
                   lighting)
  - js/Sprite.js  (Sprite.draw: per-column strip loop with depth test,
                   sprite lighting)
  - js/utils.js   (distanceBetweenPoints)
  - js/config.js  (tileSize = 50, canvasWidth = 500)

JavaScript numbers are modelled by the type JSNum: an exact rational
together with the three special values Infinity, -Infinity and NaN, with
the IEEE/JS rules for how the special values move through arithmetic and
comparisons.  Finite arithmetic is exact where JS would round; none of the
properties proved below depends on float rounding.  JS `-0` is not
modelled: the only zero denominator reached by the code is Math.tan(0),
which is `+0` in JS, and the model's division by `num 0` follows the
`+0` sign convention.
-/

set_option maxHeartbeats 1000000

inductive JSNum where
  | num (q : ℚ)
  | inf
  | ninf
  | nan
deriving DecidableEq, Repr

open JSNum

/-- JS addition on numbers, with Infinity/NaN propagation. -/
def jsAdd : JSNum → JSNum → JSNum
  | num a, num b => num (a + b)
  | nan, _ => nan
  | _, nan => nan
  | inf, ninf => nan
  | ninf, inf => nan
  | inf, _ => inf
  | _, inf => inf
  | ninf, _ => ninf
  | _, ninf => ninf

/-- JS unary minus (also used for the source's `x *= -1`). -/
def jsNeg : JSNum → JSNum
  | num a => num (-a)
  | inf => ninf
  | ninf => inf
  | nan => nan

/-- JS subtraction. -/
def jsSub (a b : JSNum) : JSNum := jsAdd a (jsNeg b)

/-- JS multiplication; Infinity * 0 is NaN. -/
def jsMul : JSNum → JSNum → JSNum
  | num a, num b => num (a * b)
  | nan, _ => nan
  | _, nan => nan
  | inf, inf => inf
  | inf, ninf => ninf
  | ninf, inf => ninf
  | ninf, ninf => inf
  | inf, num b => if 0 < b then inf else if b < 0 then ninf else nan
  | ninf, num b => if 0 < b then ninf else if b < 0 then inf else nan
  | num a, inf => if 0 < a then inf else if a < 0 then ninf else nan
  | num a, ninf => if 0 < a then ninf else if a < 0 then inf else nan

/-- JS division; a nonzero finite number divided by (+)0 gives a signed
Infinity, 0/0 gives NaN, a finite number divided by an Infinity gives 0. -/
def jsDiv : JSNum → JSNum → JSNum
  | num a, num b =>
      if b = 0 then (if 0 < a then inf else if a < 0 then ninf else nan)
      else num (a / b)
  | nan, _ => nan
  | _, nan => nan
  | inf, inf => nan
  | inf, ninf => nan
  | ninf, inf => nan
  | ninf, ninf => nan
  | inf, num b => if 0 ≤ b then inf else ninf
  | ninf, num b => if 0 ≤ b then ninf else inf
  | num _, inf => num 0
  | num _, ninf => num 0

/-- Truncation toward zero, as used by the JS `%` operator. -/
def qTrunc (q : ℚ) : ℤ := if 0 ≤ q then ⌊q⌋ else ⌈q⌉

/-- JS remainder `%`: sign follows the dividend; an infinite dividend or a
zero divisor gives NaN; a finite dividend with an infinite divisor is
returned unchanged. -/
def jsMod : JSNum → JSNum → JSNum
  | num a, num b => if b = 0 then nan else num (a - b * (qTrunc (a / b) : ℚ))
  | nan, _ => nan
  | _, nan => nan
  | inf, _ => nan
  | ninf, _ => nan
  | num a, inf => num a
  | num a, ninf => num a

/-- JS Math.floor; Math.floor of an Infinity or NaN is itself. -/
def jsFloor : JSNum → JSNum
  | num q => num (⌊q⌋ : ℤ)
  | x => x

/-- JS `<`: any comparison with NaN is false. -/
def jsLt : JSNum → JSNum → Bool
  | nan, _ => false
  | _, nan => false
  | num a, num b => decide (a < b)
  | num _, inf => true
  | num _, ninf => false
  | inf, _ => false
  | ninf, ninf => false
  | ninf, _ => true

/-- JS `<=`: any comparison with NaN is false. -/
def jsLe : JSNum → JSNum → Bool
  | nan, _ => false
  | _, nan => false
  | num a, num b => decide (a ≤ b)
  | num _, inf => true
  | num _, ninf => false
  | inf, inf => true
  | inf, _ => false
  | ninf, _ => true

/-- JS strict equality `===` on numbers: NaN is equal to nothing. -/
def jsStrictEq : JSNum → JSNum → Bool
  | nan, _ => false
  | _, nan => false
  | num a, num b => decide (a = b)
  | inf, inf => true
  | ninf, ninf => true
  | _, _ => false

/-- Square root of a nonnegative rational.  Exact whenever the argument is
the square of a rational, which covers every concrete input the theorems
below evaluate it on; for other inputs JS Math.sqrt rounds the irrational
real square root to a float, which an exact embedding cannot represent,
and this function returns the componentwise integer-sqrt approximation
instead.  No property proved below depends on the value of a non-exact
square root. -/
def ratSqrt (q : ℚ) : ℚ := (Nat.sqrt q.num.toNat : ℚ) / (Nat.sqrt q.den : ℚ)

/-- JS Math.sqrt: NaN on negative input, Infinity on Infinity. -/
def jsSqrt : JSNum → JSNum
  | num q => if q < 0 then nan else num (ratSqrt q)
  | inf => inf
  | ninf => nan
  | nan => nan

/-- Euclidean distance, from js/utils.js distanceBetweenPoints
(`Math.pow(d, 2)` is embedded as `d * d`, exact for exponent 2). -/
def distanceBetweenPoints (x1 y1 x2 y2 : JSNum) : JSNum :=
  jsSqrt (jsAdd (jsMul (jsSub x2 x1) (jsSub x2 x1)) (jsMul (jsSub y2 y1) (jsSub y2 y1)))

/-- tileSize from js/config.js. -/
def tileSizeQ : ℚ := 50

/-- canvasWidth from js/config.js (also screen width / depth-buffer length). -/
def canvasWidthZ : ℤ := 500

/-- Number.MAX_SAFE_INTEGER, the no-hit sentinel of Ray.cast. -/
def sentinelQ : ℚ := 9007199254740991

/-- The game level: the 2-D map array (js/level.js).  The canvas fields of
the JS constructor are not part of the rendering semantics and are
omitted. -/
structure Level where
  mapData : List (List ℤ)
deriving DecidableEq, Repr

/-- mapHeight = mapData.length. -/
def Level.mapHeight (L : Level) : ℕ := L.mapData.length

/-- mapWidth = mapData[0].length (the first row's length). -/
def Level.mapWidth (L : Level) : ℕ := (L.mapData.headD []).length

/-- The Level constructor (js/level.js lines 19-38).  It performs no
validation; the only input it cannot be constructed from is an empty
layout, where reading `mapLayoutArray[0].length` throws a TypeError
(modelled as `none`).  Non-rectangular rows and zero-width rows are
accepted as-is. -/
def Level.make (m : List (List ℤ)) : Option Level :=
  if m = [] then none else some ⟨m⟩

/-- The stored grid value grid[y][x] (0 when the entry does not exist). -/
def Level.tileAt (L : Level) (tx ty : ℤ) : ℤ :=
  ((L.mapData.get? ty.toNat).getD []).getD tx.toNat 0

/-- Level.hasCollision (js/level.js lines 46-57): in-bounds tiles collide
iff the stored value is nonzero (`mapData[y][x] !== 0`, with a missing
entry of a ragged row being `undefined`, which is `!== 0`, hence a
collision); everything out of bounds — including NaN or Infinite indices,
whose comparisons are all false — collides.  A finite non-integer index
inside the bounds would make JS throw on `mapData[tileY][tileX]`; that is
unreachable (every caller passes Math.floor results) and is modelled as a
collision. -/
def Level.hasCollision (L : Level) (tX tY : JSNum) : Bool :=
  if jsLe (num 0) tY && jsLt tY (num L.mapHeight) && jsLe (num 0) tX && jsLt tX (num L.mapWidth) then
    match tX, tY with
    | num qx, num qy =>
        if qy.den = 1 ∧ qx.den = 1 then
          match (L.mapData.get? qy.num.toNat).bind (fun row => row.get? qx.num.toNat) with
          | some v => decide (v ≠ 0)
          | none => true
        else true
    | _, _ => true
  else true

/-- Level.getTileValue (js/level.js lines 66-74): converts world (pixel)
coordinates to tile indices by flooring the division by tileSize, returns
the stored value in bounds and 0 out of bounds.  A missing entry of a
ragged in-bounds row is JS `undefined`; it is modelled as 0 (unreachable
for the rectangular game maps). -/
def Level.getTileValue (L : Level) (wX wY : JSNum) : ℤ :=
  let tX := jsFloor (jsDiv wX (num tileSizeQ))
  let tY := jsFloor (jsDiv wY (num tileSizeQ))
  if jsLe (num 0) tY && jsLt tY (num L.mapHeight) && jsLe (num 0) tX && jsLt tX (num L.mapWidth) then
    match tX, tY with
    | num qx, num qy => ((L.mapData.get? qy.num.toNat).getD []).getD qx.num.toNat 0
    | _, _ => 0
  else 0

/-- A fully walled row of the 15-wide test room. -/
def ringRow : List ℤ := [1, 1, 1, 1, 1, 1, 1, 1, 1, 1, 1, 1, 1, 1, 1]

/-- An interior row of the 15-wide test room: wall ring, empty inside. -/
def openRow : List ℤ := [1, 0, 0, 0, 0, 0, 0, 0, 0, 0, 0, 0, 0, 0, 1]

/-- The empty rectangular room of the spec's axis-cast test: tiles
x in [0,15), 10 rows, solid outer ring, empty interior; the first wall
column to the right of the interior is tile x = 14. -/
def ringMap : List (List ℤ) :=
  [ringRow, openRow, openRow, openRow, openRow, openRow, openRow, openRow, openRow, ringRow]

/-- Level built from the ring room. -/
def ringLevel : Level := ⟨ringMap⟩

/-- A degenerate single-open-tile map with no walls at all: both DDA
marches leave the grid on any cast. -/
def openLevel : Level := ⟨[[0]]⟩

/-- First horizontal grid line crossed (js/ray.js lines 80-81):
`Math.floor(y / tileSize) * tileSize`, plus tileSize when facing down. -/
def hIntersectionY (y : ℚ) (fd : Bool) : ℚ :=
  (⌊y / tileSizeQ⌋ : ℚ) * tileSizeQ + (if fd then tileSizeQ else 0)

/-- X where the ray meets the first horizontal grid line (lines 82-83):
`x + (hIntersectionY - y) / Math.tan(angle)`. -/
def hIntersectionX (x y : ℚ) (fd : Bool) (tanA : JSNum) : JSNum :=
  jsAdd (num x) (jsDiv (num (hIntersectionY y fd - y)) tanA)

/-- Horizontal-march x-step (lines 87-88): `tileSize / tan`, sign-fixed
against the facing-left flag via `*= -1`. -/
def hStepX (fl : Bool) (tanA : JSNum) : JSNum :=
  let s := jsDiv (num tileSizeQ) tanA
  if (fl && jsLt (num 0) s) || (!fl && jsLt s (num 0)) then jsNeg s else s

/-- First vertical grid line crossed (lines 113-114). -/
def vIntersectionX (x : ℚ) (fl : Bool) : ℚ :=
  (⌊x / tileSizeQ⌋ : ℚ) * tileSizeQ + (if fl then 0 else tileSizeQ)

/-- Y where the ray meets the first vertical grid line (lines 115-116):
`y + (vIntersectionX - x) * Math.tan(angle)`. -/
def vIntersectionY (x y : ℚ) (fl : Bool) (tanA : JSNum) : JSNum :=
  jsAdd (num y) (jsMul (num (vIntersectionX x fl - x)) tanA)

/-- Vertical-march y-step (lines 120-121): `tileSize * tan`, sign-fixed
against the facing-down flag via `*= -1`. -/
def vStepY (fd : Bool) (tanA : JSNum) : JSNum :=
  let s := jsMul (num tileSizeQ) tanA
  if (!fd && jsLt (num 0) s) || (fd && jsLt s (num 0)) then jsNeg s else s

/-- The horizontal-grid-line march of Ray.cast (js/ray.js lines 93-109),
as a fuel-indexed recursion.  The y-coordinate and its per-step increment
(`hStepY = ±tileSize`, lines 85-86, inlined here from the facing-down
flag) stay exact rationals because the ray origin is finite; the
x-coordinate is tan-dependent and carried as a JSNum.  Each iteration
checks the tile just beyond the crossing: out of the grid yields the
(Infinity, Infinity) marker, a colliding tile yields the hit point,
otherwise the march advances one horizontal grid line.  `none` is
fuel exhaustion, which the termination theorem below rules out for the
fuel Ray.cast passes. -/
def marchH (L : Level) (fd : Bool) (sX : JSNum) : JSNum → ℚ → ℕ → Option (JSNum × JSNum)
  | _, _, 0 => none
  | X, Y, fuel + 1 =>
    let cX := jsFloor (jsDiv X (num tileSizeQ))
    let cY : ℤ := if fd then ⌊Y / tileSizeQ⌋ else ⌊Y / tileSizeQ⌋ - 1
    if jsLt cX (num 0) || jsLe (num L.mapWidth) cX || decide (cY < 0) || decide ((L.mapHeight : ℤ) ≤ cY) then
      some (inf, inf)
    else if L.hasCollision cX (num (cY : ℚ)) then
      some (X, num Y)
    else
      marchH L fd sX (jsAdd X sX) (Y + (if fd then tileSizeQ else -tileSizeQ)) fuel

/-- The vertical-grid-line march of Ray.cast (js/ray.js lines 126-142),
mirror image of marchH: the x-coordinate and its step
(`vStepX = ±tileSize`, lines 118-119, inlined from the facing-left flag)
are exact rationals, the y-coordinate is tan-dependent JSNum. -/
def marchV (L : Level) (fl : Bool) (sY : JSNum) : ℚ → JSNum → ℕ → Option (JSNum × JSNum)
  | _, _, 0 => none
  | X, Y, fuel + 1 =>
    let cX : ℤ := if fl then ⌊X / tileSizeQ⌋ - 1 else ⌊X / tileSizeQ⌋
    let cY := jsFloor (jsDiv Y (num tileSizeQ))
    if decide (cX < 0) || decide ((L.mapWidth : ℤ) ≤ cX) || jsLt cY (num 0) || jsLe (num L.mapHeight) cY then
      some (inf, inf)
    else if L.hasCollision (num (cX : ℚ)) cY then
      some (num X, Y)
    else
      marchV L fl sY (X + (if fl then -tileSizeQ else tileSizeQ)) (jsAdd Y sY) fuel

/-- Everything Ray.cast computes for one column, plus the two pieces of
shared state it can touch: the level (read-only in the source) and the
depth buffer (zBuffer).  Fields mirror the instance fields assigned by
js/ray.js cast(). -/
structure CastResult where
  wallHitX : JSNum
  wallHitY : JSNum
  directDistance : JSNum
  correctedDistance : JSNum
  texturePixelX : JSNum
  textureId : ℤ
  level : Level
  zBuffer : List JSNum
deriving DecidableEq, Repr

/-- All five per-strip outputs of a cast are finite numbers (no NaN, no
Infinity): the chosen hit point, the direct and corrected distances, and
the texture column. -/
def CastResult.finiteOutputs (r : CastResult) : Prop :=
  (∃ a : ℚ, r.wallHitX = num a) ∧ (∃ b : ℚ, r.wallHitY = num b) ∧
  (∃ d : ℚ, r.directDistance = num d) ∧ (∃ e : ℚ, r.correctedDistance = num e) ∧
  (∃ f : ℚ, r.texturePixelX = num f)

/-- Tail of Ray.cast (js/ray.js lines 165-173): on `directDistance ===
Infinity` both distances become the MAX_SAFE_INTEGER sentinel and the
sentinel is written to the depth buffer at the ray's column; otherwise the
fisheye correction `directDistance * Math.cos(relativeAngleOffset)` is
applied and directDistance is written.  (A JS write `zBuffer[col] = v`
at an in-range index is List.set; the game only ever casts columns
0..canvasWidth-1 into the canvasWidth-long buffer.) -/
def finishCast (L : Level) (col : ℕ) (zB : List JSNum) (whX whY dd cosOff tpx : JSNum) (tid : ℤ) : CastResult :=
  if jsStrictEq dd inf then
    { wallHitX := whX, wallHitY := whY,
      directDistance := num sentinelQ, correctedDistance := num sentinelQ,
      texturePixelX := tpx, textureId := tid, level := L,
      zBuffer := zB.set col (num sentinelQ) }
  else
    { wallHitX := whX, wallHitY := whY,
      directDistance := dd, correctedDistance := jsMul dd cosOff,
      texturePixelX := tpx, textureId := tid, level := L,
      zBuffer := zB.set col dd }

/-- Ray.cast (js/ray.js lines 74-174).  The four angle-derived inputs are
passed in directly: `fd` (isFacingDown, 0 < angle < pi), `fl`
(isFacingLeft, pi/2 < angle < 3pi/2), `tanA = Math.tan(absoluteAngle)` and
`cosOff = Math.cos(relativeAngleOffset)`; the body uses the angle only
through these four values.  Both marches run with fuel that the
termination theorem proves sufficient, the nearer of the two candidate
hits is selected by direct Euclidean distance (a branch whose hit marker
is Infinity — `!== Infinity` in the source — gets an Infinite distance),
and the texture column / texture id / sentinel bookkeeping follows lines
144-173 exactly, including the source's double division in the textureId
lookup (getTileValue expects world coordinates but is handed tile
indices). -/
def Ray.cast (L : Level) (x y : ℚ) (fd fl : Bool) (tanA cosOff : JSNum) (col : ℕ) (zB : List JSNum) : Option CastResult :=
  match marchH L fd (hStepX fl tanA) (hIntersectionX x y fd tanA) (hIntersectionY y fd) (L.mapHeight + 2) with
  | none => none
  | some (hHitX, hHitY) =>
    match marchV L fl (vStepY fd tanA) (vIntersectionX x fl) (vIntersectionY x y fl tanA) (L.mapWidth + 2) with
    | none => none
    | some (vHitX, vHitY) =>
      let hDist := if jsStrictEq hHitX inf then inf else distanceBetweenPoints (num x) (num y) hHitX hHitY
      let vDist := if jsStrictEq vHitX inf then inf else distanceBetweenPoints (num x) (num y) vHitX vHitY
      if jsLt hDist vDist then
        let tpx := jsMod hHitX (num tileSizeQ)
        let wallTileY := if fd then jsFloor (jsDiv hHitY (num tileSizeQ)) else jsSub (jsFloor (jsDiv hHitY (num tileSizeQ))) (num 1)
        let tid := L.getTileValue (jsFloor (jsDiv hHitX (num tileSizeQ))) wallTileY
        some (finishCast L col zB hHitX hHitY hDist cosOff tpx tid)
      else
        let tpx := jsMod vHitY (num tileSizeQ)
        let wallTileX := if fl then jsSub (jsFloor (jsDiv vHitX (num tileSizeQ))) (num 1) else jsFloor (jsDiv vHitX (num tileSizeQ))
        let tid := L.getTileValue wallTileX (jsFloor (jsDiv vHitY (num tileSizeQ)))
        some (finishCast L col zB vHitX vHitY vDist cosOff tpx tid)

/-- Source texture column for one sprite strip (js/Sprite.js lines
132-138): floor of the column's proportion across the sprite's screen
width times the texture width, mirrored when the flip flag is set, then
clamped to [0, W-1]. -/
def sourceColumn (flipped : Bool) (W : ℤ) (left width : ℚ) (col : ℤ) : ℤ :=
  let s := ⌊(((col : ℚ) - left) / width) * (W : ℚ)⌋
  let s2 := if flipped then (W - 1) - s else s
  max 0 (min (W - 1) s2)

/-- The per-column strip loop of Sprite.draw (js/Sprite.js lines
127-152), iterating `count` columns starting at `col`.  Each iteration:
clip to the screen (`continue` when col < 0 or col >= canvasWidth), then
draw only when `zBuffer[col] > correctedDistanceForProjection` (a read
past the end of the JS array yields `undefined`, whose comparison is
false, modelled by the NaN default).  The zBuffer is threaded through the
loop exactly as the JS global is: read, never written.  Returns the
emitted strips (column, source texture column) and the final zBuffer. -/
def stripLoop (flipped : Bool) (W : ℤ) (left width : ℚ) (corrected : JSNum) : ℕ → ℤ → List JSNum → List (ℤ × ℤ) × List JSNum
  | 0, _, zB => ([], zB)
  | n + 1, col, zB =>
    if col < 0 ∨ canvasWidthZ ≤ col then
      stripLoop flipped W left width corrected n (col + 1) zB
    else if jsLt corrected (zB.getD col.toNat nan) then
      let r := stripLoop flipped W left width corrected n (col + 1) zB
      ((col, sourceColumn flipped W left width col) :: r.1, r.2)
    else
      stripLoop flipped W left width corrected n (col + 1) zB

/-- The strip-drawing pass of Sprite.draw (js/Sprite.js lines 124-152):
columns run from `Math.floor(spriteLeftScreenX)` up to (excluding)
`Math.floor(spriteLeftScreenX + spriteScreenWidth)`.  The screen-space
inputs (left edge, width, corrected distance, flip flag, texture width)
are the values the method computes before the loop; the guard
`correctedDistanceForProjection <= 0.1` at line 90 has already returned,
so the loop bounds are finite. -/
def Sprite.draw (flipped : Bool) (W : ℤ) (left width : ℚ) (corrected : JSNum) (zB : List JSNum) : List (ℤ × ℤ) × List JSNum :=
  stripLoop flipped W left width corrected (⌊left + width⌋ - ⌊left⌋).toNat ⌊left⌋ zB

/-- Wall-strip brightness (js/ray.js renderWallStrip lines 199-208):
start from the ambient level, recompute the falloff curve when the wall
is inside the light radius, clamp to [ambient, 1].  The float `Math.pow`
with real exponent is modelled by the real rpow; real arithmetic replaces
float arithmetic. -/
noncomputable def wallBrightness (lightRadius ambientLight falloffSharpness distance : ℝ) : ℝ :=
  let b := if distance ≤ lightRadius then
      ambientLight + (1 - ambientLight) * (1 - distance / lightRadius) ^ falloffSharpness
    else ambientLight
  max ambientLight (min 1 b)

/-- Sprite-strip brightness (js/Sprite.js draw lines 106-117): start from
1.0, take the ambient level beyond the radius, the falloff curve for
0 < distance <= radius, and clamp to [ambient, 1]. -/
noncomputable def spriteBrightness (lightRadius ambientLight falloffSharpness distance : ℝ) : ℝ :=
  let b := if lightRadius < distance then ambientLight
    else if 0 < distance then
      ambientLight + (1 - ambientLight) * (1 - distance / lightRadius) ^ falloffSharpness
    else 1
  max ambientLight (min 1 b)

lemma jsLe_num_intCast (a b : ℤ) : jsLe (num (a : ℚ)) (num (b : ℚ)) = decide (a ≤ b) := by
  simp [jsLe]

lemma jsLt_num_intCast (a b : ℤ) : jsLt (num (a : ℚ)) (num (b : ℚ)) = decide (a < b) := by
  simp [jsLt]

/-- The four-way bounds test of hasCollision/getTileValue on integer tile
coordinates, reduced to the integer comparisons. -/
lemma boundsTest_int (L : Level) (tx ty : ℤ) :
    (jsLe (num 0) (num (ty : ℚ)) && jsLt (num (ty : ℚ)) (num L.mapHeight) &&
      jsLe (num 0) (num (tx : ℚ)) && jsLt (num (tx : ℚ)) (num L.mapWidth)) =
    decide (0 ≤ ty ∧ ty < (L.mapHeight : ℤ) ∧ 0 ≤ tx ∧ tx < (L.mapWidth : ℤ)) := by
  have h0 : ((0 : ℚ)) = ((0 : ℤ) : ℚ) := by norm_num
  have hh : ((L.mapHeight : ℚ)) = (((L.mapHeight : ℤ) : ℚ)) := by push_cast; ring
  have hw : ((L.mapWidth : ℚ)) = (((L.mapWidth : ℤ) : ℚ)) := by push_cast; ring
  rw [h0, hh, hw, jsLe_num_intCast, jsLt_num_intCast, jsLe_num_intCast, jsLt_num_intCast]
  by_cases h1 : 0 ≤ ty <;> by_cases h2 : ty < (L.mapHeight : ℤ) <;>
    by_cases h3 : 0 ≤ tx <;> by_cases h4 : tx < (L.mapWidth : ℤ) <;>
    simp [h1, h2, h3, h4]

/-- hasCollision on in-bounds integer tile coordinates of a rectangular
map is the nonzero test on the stored value. -/
lemma hasCollision_inBounds (L : Level)
    (rect : ∀ row ∈ L.mapData, row.length = L.mapWidth) (tx ty : ℤ)
    (h : 0 ≤ tx ∧ tx < (L.mapWidth : ℤ) ∧ 0 ≤ ty ∧ ty < (L.mapHeight : ℤ)) :
    L.hasCollision (num (tx : ℚ)) (num (ty : ℚ)) = decide (L.tileAt tx ty ≠ 0) := by
  obtain ⟨h0x, hx, h0y, hy⟩ := h
  have hlen : ty.toNat < L.mapData.length := by
    rw [Level.mapHeight] at hy
    omega
  rw [Level.hasCollision, boundsTest_int, if_pos (by exact decide_eq_true (by exact ⟨h0y, hy, h0x, hx⟩))]
  rw [Rat.den_intCast, Rat.den_intCast]
  rw [if_pos ⟨rfl, rfl⟩]
  rw [Rat.num_intCast, Rat.num_intCast]
  cases hrow : L.mapData.get? ty.toNat with
  | none => exact absurd (List.get?_eq_none.mp hrow) (by omega)
  | some row =>
    have hmem : row ∈ L.mapData := List.get?_mem hrow
    have hrlen : tx.toNat < row.length := by
      rw [rect row hmem]
      omega
    cases hv : row.get? tx.toNat with
    | none => exact absurd (List.get?_eq_none.mp hv) (by omega)
    | some v =>
      have htile : L.tileAt tx ty = v := by
        rw [Level.tileAt, hrow, Option.getD_some, List.getD_eq_getElem?_getD,
          ← List.get?_eq_getElem?, hv, Option.getD_some]
      rw [show ((some row).bind fun r => r.get? tx.toNat) = row.get? tx.toNat from rfl]
      rw [hv, htile]

/-- hasCollision is true whenever the bounds test fails. -/
lemma hasCollision_outBounds (L : Level) (tX tY : JSNum)
    (h : (jsLe (num 0) tY && jsLt tY (num L.mapHeight) && jsLe (num 0) tX && jsLt tX (num L.mapWidth)) = false) :
    L.hasCollision tX tY = true := by
  simp [Level.hasCollision, h]

/-- C5: for every in-bounds tile coordinate of a rectangular map,
hasCollision is true exactly when the stored grid value is nonzero; for
every out-of-bounds tile coordinate, hasCollision is true while
getTileValue, applied to any world (pixel) coordinates whose tile is that
same out-of-bounds tile, returns 0. -/
theorem Level.isWall_vs_valueAt (L : Level)
    (rect : ∀ row ∈ L.mapData, row.length = L.mapWidth) (tx ty : ℤ) :
    ((0 ≤ tx ∧ tx < (L.mapWidth : ℤ) ∧ 0 ≤ ty ∧ ty < (L.mapHeight : ℤ)) →
      (L.hasCollision (num (tx : ℚ)) (num (ty : ℚ)) = true ↔ L.tileAt tx ty ≠ 0)) ∧
    (¬(0 ≤ tx ∧ tx < (L.mapWidth : ℤ) ∧ 0 ≤ ty ∧ ty < (L.mapHeight : ℤ)) →
      L.hasCollision (num (tx : ℚ)) (num (ty : ℚ)) = true ∧
      ∀ wx wy : ℚ, ⌊wx / tileSizeQ⌋ = tx → ⌊wy / tileSizeQ⌋ = ty →
        L.getTileValue (num wx) (num wy) = 0) := by
  constructor
  · intro h
    rw [hasCollision_inBounds L rect tx ty h]
    simp
  · intro h
    have hb : (0 ≤ ty ∧ ty < (L.mapHeight : ℤ) ∧ 0 ≤ tx ∧ tx < (L.mapWidth : ℤ)) → False := by
      intro hc
      exact h ⟨hc.2.2.1, hc.2.2.2, hc.1, hc.2.1⟩
    have hcond : (jsLe (num 0) (num (ty : ℚ)) && jsLt (num (ty : ℚ)) (num L.mapHeight) &&
        jsLe (num 0) (num (tx : ℚ)) && jsLt (num (tx : ℚ)) (num L.mapWidth)) = false := by
      rw [boundsTest_int]
      exact decide_eq_false hb
    refine ⟨hasCollision_outBounds L _ _ hcond, ?_⟩
    intro wx wy hwx hwy
    have hdx : jsFloor (jsDiv (num wx) (num tileSizeQ)) = num (tx : ℚ) := by
      rw [jsDiv, if_neg (by norm_num [tileSizeQ]), jsFloor, hwx]
    have hdy : jsFloor (jsDiv (num wy) (num tileSizeQ)) = num (ty : ℚ) := by
      rw [jsDiv, if_neg (by norm_num [tileSizeQ]), jsFloor, hwy]
    rw [Level.getTileValue]
    simp only [hdx, hdy]
    rw [if_neg]
    rw [hcond]
    exact Bool.false_ne_true

/-- C10: the Level constructor does not fail fast on malformed layouts.
A non-rectangular layout and a zero-width layout both construct a usable
Level; the only rejected input is the empty (zero-row) layout, and that
only because reading the first row's length throws.  This contradicts the
spec's load-time fail-fast requirement for malformed maps. -/
theorem Level.make_no_validation :
    (Level.make [[1, 2], [3]]).isSome = true ∧
    (Level.make [[], [0]]).isSome = true ∧
    Level.make ([] : List (List ℤ)) = none := by
  refine ⟨rfl, rfl, rfl⟩

/-- C7: the brightness computation duplicated in Ray.renderWallStrip and
in Sprite.draw is the same function of distance — for every nonnegative
distance and the same (positive) light radius, ambient level, and falloff
sharpness, both code paths return equal values. -/
theorem lightModel_wall_sprite_eq (R A k d : ℝ) (hR : 0 < R) (hd : 0 ≤ d) :
    wallBrightness R A k d = spriteBrightness R A k d := by
  simp only [wallBrightness, spriteBrightness]
  by_cases h1 : d ≤ R
  · rw [if_pos h1, if_neg (not_lt.mpr h1)]
    by_cases h2 : 0 < d
    · rw [if_pos h2]
    · have hd0 : d = 0 := le_antisymm (not_lt.mp h2) hd
      subst hd0
      rw [if_neg h2, zero_div, sub_zero, Real.one_rpow]
      have : A + (1 - A) * 1 = 1 := by ring
      rw [this]
  · rw [if_neg h1, if_pos (not_le.mp h1)]

/-- Witness for C7 at the game's configuration (radius 150, ambient 0.01,
sharpness 0.9) and distance 30. -/
theorem lightModel_wall_sprite_eq_witness :
    wallBrightness 150 (1 / 100) (9 / 10) 30 = spriteBrightness 150 (1 / 100) (9 / 10) 30 :=
  lightModel_wall_sprite_eq 150 (1 / 100) (9 / 10) 30 (by norm_num) (by norm_num)

/-- C8: for parameters 0 <= ambient <= 1, radius > 0 and sharpness > 0,
the wall-strip brightness is non-increasing in distance on d >= 0, always
lies in [ambient, 1], and equals exactly 1 at distance 0. -/
theorem wallBrightness_shape (R A k : ℝ) (hA0 : 0 ≤ A) (hA1 : A ≤ 1) (hR : 0 < R) (hk : 0 < k) :
    (∀ d1 d2 : ℝ, 0 ≤ d1 → d1 ≤ d2 → wallBrightness R A k d2 ≤ wallBrightness R A k d1) ∧
    (∀ d : ℝ, 0 ≤ d → A ≤ wallBrightness R A k d ∧ wallBrightness R A k d ≤ 1) ∧
    wallBrightness R A k 0 = 1 := by
  have hbounds : ∀ d : ℝ, A ≤ wallBrightness R A k d ∧ wallBrightness R A k d ≤ 1 := by
    intro d
    exact ⟨le_max_left _ _, max_le hA1 (min_le_left _ _)⟩
  refine ⟨?_, fun d _ => hbounds d, ?_⟩
  · intro d1 d2 h0 h12
    by_cases h2 : d2 ≤ R
    · have h1 : d1 ≤ R := le_trans h12 h2
      have hb2 : (0 : ℝ) ≤ 1 - d2 / R := by
        have : d2 / R ≤ 1 := (div_le_one hR).mpr h2
        linarith
      have hble : 1 - d2 / R ≤ 1 - d1 / R := by
        have : d1 / R ≤ d2 / R := (div_le_div_right hR).mpr h12
        linarith
      have hpow : (1 - d2 / R) ^ k ≤ (1 - d1 / R) ^ k :=
        Real.rpow_le_rpow hb2 hble (le_of_lt hk)
      have h1A : (0 : ℝ) ≤ 1 - A := by linarith
      have hfe : A + (1 - A) * (1 - d2 / R) ^ k ≤ A + (1 - A) * (1 - d1 / R) ^ k := by
        have := mul_le_mul_of_nonneg_left hpow h1A
        linarith
      simp only [wallBrightness, if_pos h1, if_pos h2]
      exact max_le_max le_rfl (min_le_min le_rfl hfe)
    · have hA : wallBrightness R A k d2 = A := by
        simp only [wallBrightness, if_neg h2]
        rw [min_eq_right hA1, max_self]
      rw [hA]
      exact (hbounds d1).1
  · simp only [wallBrightness, if_pos hR.le]
    rw [zero_div, sub_zero, Real.one_rpow]
    have : A + (1 - A) * 1 = 1 := by ring
    rw [this, min_self, max_eq_right hA1]

/-- Witness for C8 at the game's configuration: at distance 0 the
brightness is exactly 1. -/
theorem wallBrightness_shape_witness : wallBrightness 150 (1 / 100) (9 / 10) 0 = 1 :=
  (wallBrightness_shape 150 (1 / 100) (9 / 10) (by norm_num) (by norm_num) (by norm_num) (by norm_num)).2.2

lemma floor_div_tile_add : ∀ Y : ℚ, ⌊(Y + tileSizeQ) / tileSizeQ⌋ = ⌊Y / tileSizeQ⌋ + 1 := by
  intro Y
  rw [tileSizeQ, show (Y + 50) / 50 = Y / 50 + 1 by ring]
  exact Int.floor_add_one _

lemma floor_div_tile_sub : ∀ Y : ℚ, ⌊(Y + -tileSizeQ) / tileSizeQ⌋ = ⌊Y / tileSizeQ⌋ - 1 := by
  intro Y
  rw [tileSizeQ, show (Y + -50) / 50 = Y / 50 - ((1 : ℤ) : ℚ) by push_cast; ring]
  exact Int.floor_sub_int _ _

/-- Fuel sufficiency for the horizontal march: every iteration either
exits (out of grid, or wall) or moves the checked tile row one step
monotonically, so the march finishes before the measure runs out. -/
lemma marchH_isSome_aux (L : Level) (fd : Bool) (sX : JSNum) :
    ∀ (fuel : ℕ) (X : JSNum) (Y : ℚ), 0 < fuel →
      ((if fd then (L.mapHeight : ℤ) - ⌊Y / tileSizeQ⌋ else ⌊Y / tileSizeQ⌋) < (fuel : ℤ) ∨
        (if fd then ⌊Y / tileSizeQ⌋ < 0 else (L.mapHeight : ℤ) ≤ ⌊Y / tileSizeQ⌋ - 1)) →
      (marchH L fd sX X Y fuel).isSome = true := by
  intro fuel
  induction fuel with
  | zero => intro X Y hpos _; omega
  | succ n ih =>
    intro X Y _ hcase
    cases fd with
    | true =>
      have hcase' : (L.mapHeight : ℤ) - ⌊Y / tileSizeQ⌋ < ((n + 1 : ℕ) : ℤ) ∨ ⌊Y / tileSizeQ⌋ < 0 := by
        rcases hcase with h | h
        · exact Or.inl (by simpa using h)
        · exact Or.inr (by simpa using h)
      simp only [marchH, eq_self_iff_true, if_true]
      by_cases hb : (jsLt (jsFloor (jsDiv X (num tileSizeQ))) (num 0) ||
          jsLe (num L.mapWidth) (jsFloor (jsDiv X (num tileSizeQ))) ||
          decide (⌊Y / tileSizeQ⌋ < 0) || decide ((L.mapHeight : ℤ) ≤ ⌊Y / tileSizeQ⌋)) = true
      · rw [if_pos hb]
        rfl
      · rw [if_neg hb]
        by_cases hcoll : L.hasCollision (jsFloor (jsDiv X (num tileSizeQ))) (num (⌊Y / tileSizeQ⌋ : ℚ)) = true
        · rw [if_pos hcoll]
          rfl
        · rw [if_neg hcoll]
          simp only [Bool.or_eq_true, decide_eq_true_eq, not_or] at hb
          obtain ⟨⟨⟨-, -⟩, hc1⟩, hc2⟩ := hb
          refine ih _ _ (by omega) (Or.inl ?_)
          show (L.mapHeight : ℤ) - ⌊(Y + tileSizeQ) / tileSizeQ⌋ < (n : ℤ)
          rw [floor_div_tile_add]
          omega
    | false =>
      have hcase' : ⌊Y / tileSizeQ⌋ < ((n + 1 : ℕ) : ℤ) ∨ (L.mapHeight : ℤ) ≤ ⌊Y / tileSizeQ⌋ - 1 := by
        rcases hcase with h | h
        · exact Or.inl (by simpa using h)
        · exact Or.inr (by simpa using h)
      simp only [marchH, Bool.false_eq_true, if_false]
      by_cases hb : (jsLt (jsFloor (jsDiv X (num tileSizeQ))) (num 0) ||
          jsLe (num L.mapWidth) (jsFloor (jsDiv X (num tileSizeQ))) ||
          decide (⌊Y / tileSizeQ⌋ - 1 < 0) || decide ((L.mapHeight : ℤ) ≤ ⌊Y / tileSizeQ⌋ - 1)) = true
      · rw [if_pos hb]
        rfl
      · rw [if_neg hb]
        by_cases hcoll : L.hasCollision (jsFloor (jsDiv X (num tileSizeQ))) (num ((⌊Y / tileSizeQ⌋ - 1 : ℤ) : ℚ)) = true
        · rw [if_pos hcoll]
          rfl
        · rw [if_neg hcoll]
          simp only [Bool.or_eq_true, decide_eq_true_eq, not_or] at hb
          obtain ⟨⟨⟨-, -⟩, hc1⟩, hc2⟩ := hb
          refine ih _ _ (by omega) (Or.inl ?_)
          show ⌊(Y + -tileSizeQ) / tileSizeQ⌋ < (n : ℤ)
          rw [floor_div_tile_sub]
          omega

/-- Fuel sufficiency for the vertical march, mirror of marchH_isSome_aux:
the checked tile column moves one step per iteration. -/
lemma marchV_isSome_aux (L : Level) (fl : Bool) (sY : JSNum) :
    ∀ (fuel : ℕ) (X : ℚ) (Y : JSNum), 0 < fuel →
      ((if fl then ⌊X / tileSizeQ⌋ else (L.mapWidth : ℤ) - ⌊X / tileSizeQ⌋) < (fuel : ℤ) ∨
        (if fl then (L.mapWidth : ℤ) ≤ ⌊X / tileSizeQ⌋ - 1 else ⌊X / tileSizeQ⌋ < 0)) →
      (marchV L fl sY X Y fuel).isSome = true := by
  intro fuel
  induction fuel with
  | zero => intro X Y hpos _; omega
  | succ n ih =>
    intro X Y _ hcase
    cases fl with
    | true =>
      have hcase' : ⌊X / tileSizeQ⌋ < ((n + 1 : ℕ) : ℤ) ∨ (L.mapWidth : ℤ) ≤ ⌊X / tileSizeQ⌋ - 1 := by
        rcases hcase with h | h
        · exact Or.inl (by simpa using h)
        · exact Or.inr (by simpa using h)
      simp only [marchV, eq_self_iff_true, if_true]
      by_cases hb : (decide (⌊X / tileSizeQ⌋ - 1 < 0) || decide ((L.mapWidth : ℤ) ≤ ⌊X / tileSizeQ⌋ - 1) ||
          jsLt (jsFloor (jsDiv Y (num tileSizeQ))) (num 0) ||
          jsLe (num L.mapHeight) (jsFloor (jsDiv Y (num tileSizeQ)))) = true
      · rw [if_pos hb]
        rfl
      · rw [if_neg hb]
        by_cases hcoll : L.hasCollision (num ((⌊X / tileSizeQ⌋ - 1 : ℤ) : ℚ)) (jsFloor (jsDiv Y (num tileSizeQ))) = true
        · rw [if_pos hcoll]
          rfl
        · rw [if_neg hcoll]
          simp only [Bool.or_eq_true, decide_eq_true_eq, not_or] at hb
          obtain ⟨⟨⟨hc1, hc2⟩, -⟩, -⟩ := hb
          refine ih _ _ (by omega) (Or.inl ?_)
          show ⌊(X + -tileSizeQ) / tileSizeQ⌋ < (n : ℤ)
          rw [floor_div_tile_sub]
          omega
    | false =>
      have hcase' : (L.mapWidth : ℤ) - ⌊X / tileSizeQ⌋ < ((n + 1 : ℕ) : ℤ) ∨ ⌊X / tileSizeQ⌋ < 0 := by
        rcases hcase with h | h
        · exact Or.inl (by simpa using h)
        · exact Or.inr (by simpa using h)
      simp only [marchV, Bool.false_eq_true, if_false]
      by_cases hb : (decide (⌊X / tileSizeQ⌋ < 0) || decide ((L.mapWidth : ℤ) ≤ ⌊X / tileSizeQ⌋) ||
          jsLt (jsFloor (jsDiv Y (num tileSizeQ))) (num 0) ||
          jsLe (num L.mapHeight) (jsFloor (jsDiv Y (num tileSizeQ)))) = true
      · rw [if_pos hb]
        rfl
      · rw [if_neg hb]
        by_cases hcoll : L.hasCollision (num (⌊X / tileSizeQ⌋ : ℚ)) (jsFloor (jsDiv Y (num tileSizeQ))) = true
        · rw [if_pos hcoll]
          rfl
        · rw [if_neg hcoll]
          simp only [Bool.or_eq_true, decide_eq_true_eq, not_or] at hb
          obtain ⟨⟨⟨hc1, hc2⟩, -⟩, -⟩ := hb
          refine ih _ _ (by omega) (Or.inl ?_)
          show (L.mapWidth : ℤ) - ⌊(X + tileSizeQ) / tileSizeQ⌋ < (n : ℤ)
          rw [floor_div_tile_add]
          omega

/-- C3: both DDA march loops of Ray.cast terminate for every ray origin
and every angle (every facing-flag/step combination, a superset of the
angle-derived values), each either finding a wall or leaving the grid.
The horizontal march finishes within mapHeight + 2 iterations and the
vertical march within mapWidth + 2 — each bounded by
max(mapWidth, mapHeight) plus the small constant 2 — because every
non-exiting iteration moves the checked tile row (resp. column) exactly
one grid line monotonically toward a map boundary.  These are exactly
the fuels Ray.cast runs the marches with, so Ray.cast never exhausts
them. -/
theorem Ray.cast_march_terminates :
    (∀ (L : Level) (fd : Bool) (sX X : JSNum) (Y : ℚ),
      (marchH L fd sX X Y (L.mapHeight + 2)).isSome = true) ∧
    (∀ (L : Level) (fl : Bool) (sY : JSNum) (X : ℚ) (Y : JSNum),
      (marchV L fl sY X Y (L.mapWidth + 2)).isSome = true) := by
  constructor
  · intro L fd sX X Y
    apply marchH_isSome_aux L fd sX (L.mapHeight + 2) X Y (by omega)
    cases fd with
    | true =>
      simp only [eq_self_iff_true, if_true]
      by_cases h : ⌊Y / tileSizeQ⌋ < 0
      · exact Or.inr h
      · exact Or.inl (by push_cast; omega)
    | false =>
      simp only [Bool.false_eq_true, if_false]
      by_cases h : (L.mapHeight : ℤ) ≤ ⌊Y / tileSizeQ⌋ - 1
      · exact Or.inr h
      · exact Or.inl (by push_cast; omega)
  · intro L fl sY X Y
    apply marchV_isSome_aux L fl sY (L.mapWidth + 2) X Y (by omega)
    cases fl with
    | true =>
      simp only [eq_self_iff_true, if_true]
      by_cases h : (L.mapWidth : ℤ) ≤ ⌊X / tileSizeQ⌋ - 1
      · exact Or.inr h
      · exact Or.inl (by push_cast; omega)
    | false =>
      simp only [Bool.false_eq_true, if_false]
      by_cases h : ⌊X / tileSizeQ⌋ < 0
      · exact Or.inr h
      · exact Or.inl (by push_cast; omega)

lemma finishCast_write (L : Level) (col : ℕ) (zB : List JSNum) (whX whY dd cosOff tpx : JSNum) (tid : ℤ) :
    (finishCast L col zB whX whY dd cosOff tpx tid).zBuffer
      = zB.set col (finishCast L col zB whX whY dd cosOff tpx tid).directDistance ∧
    (finishCast L col zB whX whY dd cosOff tpx tid).level = L := by
  rw [finishCast]
  by_cases h : jsStrictEq dd inf = true
  · rw [if_pos h]
    exact ⟨rfl, rfl⟩
  · rw [if_neg h]
    exact ⟨rfl, rfl⟩

lemma ite_some_cases {α : Type} (c : Prop) [Decidable c] (a b x : α)
    (h : (if c then some a else some b) = some x) : x = a ∨ x = b := by
  split at h
  · exact Or.inl (Option.some.inj h).symm
  · exact Or.inr (Option.some.inj h).symm

/-- Whatever Ray.cast computes, its effect on shared state is exactly one
depth-buffer write at its own column, of its directDistance, and no
change to the level. -/
lemma cast_write (L : Level) (x y : ℚ) (fd fl : Bool) (tanA cosOff : JSNum) (col : ℕ) (zB : List JSNum) (r : CastResult)
    (h : Ray.cast L x y fd fl tanA cosOff col zB = some r) :
    r.zBuffer = zB.set col r.directDistance ∧ r.level = L := by
  cases hH : marchH L fd (hStepX fl tanA) (hIntersectionX x y fd tanA) (hIntersectionY y fd) (L.mapHeight + 2) with
  | none => simp [Ray.cast, hH] at h
  | some p =>
    obtain ⟨hHitX, hHitY⟩ := p
    cases hV : marchV L fl (vStepY fd tanA) (vIntersectionX x fl) (vIntersectionY x y fl tanA) (L.mapWidth + 2) with
    | none => simp [Ray.cast, hH, hV] at h
    | some q =>
      obtain ⟨vHitX, vHitY⟩ := q
      simp only [Ray.cast, hH, hV] at h
      rcases ite_some_cases _ _ _ _ h with rfl | rfl
      · exact finishCast_write _ _ _ _ _ _ _ _ _
      · exact finishCast_write _ _ _ _ _ _ _ _ _

/-- C4: on a cast where neither march found a hit inside the grid (both
returned the Infinity marker), directDistance and correctedDistance are
set to the finite MAX_SAFE_INTEGER sentinel (not Infinity), the textureId
comes out 0 (the getTileValue lookup on the Infinite hit point is out of
bounds) so no wall strip is drawn, and the sentinel is still written into
the depth buffer at the ray's column; and on every cast, hit or no-hit,
the depth-buffer entry at the ray's column is written with the cast's
directDistance. -/
theorem Ray.cast_depth_write_and_sentinel :
    (∀ (L : Level) (x y : ℚ) (fd fl : Bool) (tanA cosOff : JSNum) (col : ℕ) (zB : List JSNum),
      (Ray.cast L x y fd fl tanA cosOff col zB).map CastResult.zBuffer =
        (Ray.cast L x y fd fl tanA cosOff col zB).map (fun r => zB.set col r.directDistance)) ∧
    (∀ (L : Level) (x y : ℚ) (fd fl : Bool) (tanA cosOff : JSNum) (col : ℕ) (zB : List JSNum),
      marchH L fd (hStepX fl tanA) (hIntersectionX x y fd tanA) (hIntersectionY y fd) (L.mapHeight + 2) = some (inf, inf) →
      marchV L fl (vStepY fd tanA) (vIntersectionX x fl) (vIntersectionY x y fl tanA) (L.mapWidth + 2) = some (inf, inf) →
      (Ray.cast L x y fd fl tanA cosOff col zB).map
          (fun r => (r.directDistance, r.correctedDistance, r.textureId, r.zBuffer)) =
        some (num sentinelQ, num sentinelQ, (0 : ℤ), zB.set col (num sentinelQ))) := by
  constructor
  · intro L x y fd fl tanA cosOff col zB
    cases hc : Ray.cast L x y fd fl tanA cosOff col zB with
    | none => rfl
    | some r =>
      simp only [Option.map_some']
      rw [(cast_write L x y fd fl tanA cosOff col zB r hc).1]
  · intro L x y fd fl tanA cosOff col zB hm hv
    cases fl with
    | true =>
      simp [Ray.cast, hm, hv, jsLt, jsStrictEq, finishCast, jsSub, jsAdd, jsNeg, jsFloor,
        jsDiv, Level.getTileValue, jsLe, tileSizeQ]
    | false =>
      simp [Ray.cast, hm, hv, jsLt, jsStrictEq, finishCast, jsSub, jsAdd, jsNeg, jsFloor,
        jsDiv, Level.getTileValue, jsLe, tileSizeQ]

/-- The sprite strip loop threads the depth buffer through unchanged:
Sprite.draw reads it and never writes it. -/
lemma stripLoop_snd (flipped : Bool) (W : ℤ) (left width : ℚ) (corrected : JSNum) :
    ∀ (n : ℕ) (col : ℤ) (zB : List JSNum),
      (stripLoop flipped W left width corrected n col zB).2 = zB := by
  intro n
  induction n with
  | zero => intro col zB; rfl
  | succ n ih =>
    intro col zB
    simp only [stripLoop]
    split
    · exact ih _ _
    · split
      · exact ih _ _
      · exact ih _ _

lemma get?_set_ne {α : Type} (l : List α) (i j : ℕ) (a : α) (h : j ≠ i) :
    (l.set i a).get? j = l.get? j := by
  induction l generalizing i j with
  | nil => rfl
  | cons b t ih =>
    cases i with
    | zero =>
      cases j with
      | zero => exact absurd rfl h
      | succ j => rfl
    | succ i =>
      cases j with
      | zero => rfl
      | succ j => exact ih i j (by omega)

/-- C9: each Ray.cast writes exactly one depth-buffer entry — the one at
its own screenColumn — leaves every other depth-buffer entry unchanged,
and leaves the level map unchanged; Sprite.draw reads depth-buffer
entries but never writes any. -/
theorem Ray.cast_frame_effects :
    (∀ (L : Level) (x y : ℚ) (fd fl : Bool) (tanA cosOff : JSNum) (col : ℕ) (zB : List JSNum) (j : ℕ),
      j ≠ col →
      (Ray.cast L x y fd fl tanA cosOff col zB).map (fun r => r.zBuffer.get? j) =
        (Ray.cast L x y fd fl tanA cosOff col zB).map (fun _ => zB.get? j)) ∧
    (∀ (L : Level) (x y : ℚ) (fd fl : Bool) (tanA cosOff : JSNum) (col : ℕ) (zB : List JSNum),
      (Ray.cast L x y fd fl tanA cosOff col zB).map (fun r => (r.zBuffer, r.level)) =
        (Ray.cast L x y fd fl tanA cosOff col zB).map (fun r => (zB.set col r.directDistance, L))) ∧
    (∀ (flipped : Bool) (W : ℤ) (left width : ℚ) (corrected : JSNum) (zB : List JSNum),
      (Sprite.draw flipped W left width corrected zB).2 = zB) := by
  refine ⟨?_, ?_, ?_⟩
  · intro L x y fd fl tanA cosOff col zB j hj
    cases hc : Ray.cast L x y fd fl tanA cosOff col zB with
    | none => rfl
    | some r =>
      simp only [Option.map_some']
      rw [(cast_write L x y fd fl tanA cosOff col zB r hc).1, get?_set_ne _ _ _ _ hj]
  · intro L x y fd fl tanA cosOff col zB
    cases hc : Ray.cast L x y fd fl tanA cosOff col zB with
    | none => rfl
    | some r =>
      obtain ⟨h1, h2⟩ := cast_write L x y fd fl tanA cosOff col zB r hc
      simp only [Option.map_some', h1, h2]
  · intro flipped W left width corrected zB
    exact stripLoop_snd flipped W left width corrected _ _ zB

/-- The horizontal march of the angle-0 cast from (75, 75) in the ring
room exits the grid at once: tan 0 = 0 makes the first-crossing x
-Infinite, which the bounds check catches. -/
lemma ring_marchH_eval :
    marchH ringLevel false (hStepX false (num 0)) (hIntersectionX 75 75 false (num 0))
      (hIntersectionY 75 false) (ringLevel.mapHeight + 2) = some (inf, inf) := by
  norm_num [marchH, hIntersectionX, hIntersectionY, hStepX, jsAdd, jsDiv, jsFloor,
    jsLt, jsLe, tileSizeQ, show ringLevel.mapHeight = 10 from rfl]

/-- The vertical march of the angle-0 cast from (75, 75) in the ring room
walks the open interior of row 1 and stops at the wall ring column
x = 14, hit point (700, 75). -/
lemma ring_marchV_eval :
    marchV ringLevel false (vStepY false (num 0)) (vIntersectionX 75 false)
      (vIntersectionY 75 75 false (num 0)) (ringLevel.mapWidth + 2) = some (num 700, num 75) := by
  have hc2 : ringLevel.hasCollision (num 2) (num 1) = false := by
    norm_num [Level.hasCollision, Level.mapWidth, Level.mapHeight, ringLevel, ringMap, ringRow, openRow, jsLe, jsLt]
    simp [Int.toNat_ofNat]
  have hc3 : ringLevel.hasCollision (num 3) (num 1) = false := by
    norm_num [Level.hasCollision, Level.mapWidth, Level.mapHeight, ringLevel, ringMap, ringRow, openRow, jsLe, jsLt]
    simp [Int.toNat_ofNat]
  have hc4 : ringLevel.hasCollision (num 4) (num 1) = false := by
    norm_num [Level.hasCollision, Level.mapWidth, Level.mapHeight, ringLevel, ringMap, ringRow, openRow, jsLe, jsLt]
    simp [Int.toNat_ofNat]
  have hc5 : ringLevel.hasCollision (num 5) (num 1) = false := by
    norm_num [Level.hasCollision, Level.mapWidth, Level.mapHeight, ringLevel, ringMap, ringRow, openRow, jsLe, jsLt]
    simp [Int.toNat_ofNat]
  have hc6 : ringLevel.hasCollision (num 6) (num 1) = false := by
    norm_num [Level.hasCollision, Level.mapWidth, Level.mapHeight, ringLevel, ringMap, ringRow, openRow, jsLe, jsLt]
    simp [Int.toNat_ofNat]
  have hc7 : ringLevel.hasCollision (num 7) (num 1) = false := by
    norm_num [Level.hasCollision, Level.mapWidth, Level.mapHeight, ringLevel, ringMap, ringRow, openRow, jsLe, jsLt]
    simp [Int.toNat_ofNat]
  have hc8 : ringLevel.hasCollision (num 8) (num 1) = false := by
    norm_num [Level.hasCollision, Level.mapWidth, Level.mapHeight, ringLevel, ringMap, ringRow, openRow, jsLe, jsLt]
    simp [Int.toNat_ofNat]
  have hc9 : ringLevel.hasCollision (num 9) (num 1) = false := by
    norm_num [Level.hasCollision, Level.mapWidth, Level.mapHeight, ringLevel, ringMap, ringRow, openRow, jsLe, jsLt]
    simp [Int.toNat_ofNat]
  have hc10 : ringLevel.hasCollision (num 10) (num 1) = false := by
    norm_num [Level.hasCollision, Level.mapWidth, Level.mapHeight, ringLevel, ringMap, ringRow, openRow, jsLe, jsLt]
    simp [Int.toNat_ofNat]
  have hc11 : ringLevel.hasCollision (num 11) (num 1) = false := by
    norm_num [Level.hasCollision, Level.mapWidth, Level.mapHeight, ringLevel, ringMap, ringRow, openRow, jsLe, jsLt]
    simp [Int.toNat_ofNat]
  have hc12 : ringLevel.hasCollision (num 12) (num 1) = false := by
    norm_num [Level.hasCollision, Level.mapWidth, Level.mapHeight, ringLevel, ringMap, ringRow, openRow, jsLe, jsLt]
    simp [Int.toNat_ofNat]
  have hc13 : ringLevel.hasCollision (num 13) (num 1) = false := by
    norm_num [Level.hasCollision, Level.mapWidth, Level.mapHeight, ringLevel, ringMap, ringRow, openRow, jsLe, jsLt]
    simp [Int.toNat_ofNat]
  have hc14 : ringLevel.hasCollision (num 14) (num 1) = true := by
    norm_num [Level.hasCollision, Level.mapWidth, Level.mapHeight, ringLevel, ringMap, ringRow, openRow, jsLe, jsLt]
    simp [Int.toNat_ofNat]
  norm_num [marchV, vIntersectionX, vIntersectionY, vStepY, jsAdd, jsMul, jsDiv, jsFloor,
    jsLt, jsLe, tileSizeQ,
    show ringLevel.mapWidth = 15 from rfl, show ringLevel.mapHeight = 10 from rfl,
    hc2, hc3, hc4, hc5, hc6, hc7, hc8, hc9, hc10, hc11, hc12, hc13, hc14]

/-- C2: casting a ray strictly along the +x axis (angle 0: facingDown and
facingLeft false, tan 0 = 0, cos of the zero offset = 1) from (75, 75)
inside the empty 15-wide ring room returns directDistance exactly
14 * 50 - 75 = 625, the analytic distance to the first wall column at
tile x = 14. -/
theorem Ray.cast_axis_distance :
    (Ray.cast ringLevel 75 75 false false (num 0) (num 1) 250 []).map CastResult.directDistance
      = some (num 625) := by
  have hs : Nat.sqrt 390625 = 625 := by
    rw [show (390625 : ℕ) = 625 * 625 by norm_num]
    exact Nat.sqrt_eq' 625
  have ht : Int.toNat 390625 = 390625 := rfl
  norm_num [Ray.cast, ring_marchH_eval, ring_marchV_eval, jsAdd, jsDiv, jsMul, jsSub,
    jsNeg, jsFloor, jsLt, jsLe, jsStrictEq, jsSqrt, ratSqrt, distanceBetweenPoints,
    tileSizeQ, finishCast, hs, ht]

/-- C6 counterexample: Ray.cast has no epsilon-clamping of the degenerate
trig denominator, and at an exact multiple of pi/2 it can propagate
Infinity and NaN into its outputs.  At angle 0 (facing flags false,
tan 0 = 0) from (25, 25) on the wall-less single-tile map, both marches
leave the grid, the chosen hit point is (Infinity, Infinity) and
texturePixelX = Infinity % tileSize = NaN — not the finite, non-NaN
values the claim asserts for every axis-multiple cast. -/
theorem Ray.cast_axis_nan_counterexample :
    (Ray.cast openLevel 25 25 false false (num 0) (num 1) 0 []).map
        (fun r => (r.wallHitX, r.wallHitY, r.texturePixelX))
      = some (inf, inf, nan) := by
  norm_num [Ray.cast, marchH, marchV, hIntersectionX, hIntersectionY, hStepX,
    vIntersectionX, vIntersectionY, vStepY, jsAdd, jsDiv, jsMul, jsSub, jsNeg, jsFloor,
    jsLt, jsLe, jsStrictEq, jsMod, qTrunc, distanceBetweenPoints, jsSqrt, ratSqrt,
    tileSizeQ, finishCast,
    show openLevel.mapWidth = 1 from rfl, show openLevel.mapHeight = 1 from rfl]

lemma jsLt_nan_left (b : JSNum) : jsLt nan b = false := by
  cases b <;> rfl

lemma jsLt_inf_left (b : JSNum) : jsLt inf b = false := by
  cases b <;> rfl

lemma jsSub_num (a x : ℚ) : jsSub (num a) (num x) = num (a - x) := by
  rw [jsSub, sub_eq_add_neg]
  rfl

/-- distanceBetweenPoints on four finite numbers is a finite number: the
squared sum is nonnegative, so Math.sqrt does not return NaN. -/
lemma dist_num_num (x y a b : ℚ) :
    distanceBetweenPoints (num x) (num y) (num a) (num b)
      = num (ratSqrt ((a - x) * (a - x) + (b - y) * (b - y))) := by
  rw [distanceBetweenPoints, jsSub_num, jsSub_num]
  show jsSqrt (num ((a - x) * (a - x) + (b - y) * (b - y))) = _
  simp only [jsSqrt]
  rw [if_neg (not_lt.mpr (add_nonneg (mul_self_nonneg _) (mul_self_nonneg _)))]

lemma dist_nan_pt (x y b : ℚ) :
    distanceBetweenPoints (num x) (num y) nan (num b) = nan := rfl

lemma dist_ninf_pt (x y b : ℚ) :
    distanceBetweenPoints (num x) (num y) ninf (num b) = inf := rfl

lemma jsMod_num_tile (a : ℚ) :
    jsMod (num a) (num tileSizeQ) = num (a - tileSizeQ * (qTrunc (a / tileSizeQ) : ℚ)) := by
  simp only [jsMod]
  rw [if_neg (by norm_num [tileSizeQ])]

/-- The vertical-march y-step computed from a finite tangent is finite. -/
lemma vStepY_num (fd : Bool) (t : ℚ) : ∃ s : ℚ, vStepY fd (num t) = num s := by
  simp only [vStepY]
  by_cases hc : ((!fd && jsLt (num 0) (jsMul (num tileSizeQ) (num t))) ||
      (fd && jsLt (jsMul (num tileSizeQ) (num t)) (num 0))) = true
  · exact ⟨-(tileSizeQ * t), by rw [if_pos hc]; rfl⟩
  · exact ⟨tileSizeQ * t, by rw [if_neg hc]; rfl⟩

/-- The first vertical-line crossing computed from a finite tangent is
finite. -/
lemma vIntersectionY_num (x y : ℚ) (fl : Bool) (t : ℚ) :
    vIntersectionY x y fl (num t) = num (y + (vIntersectionX x fl - x) * t) := rfl

lemma finishCast_inf_fields (L : Level) (col : ℕ) (zB : List JSNum) (whX whY cosOff tpx : JSNum) (tid : ℤ) :
    (finishCast L col zB whX whY inf cosOff tpx tid).directDistance = num sentinelQ ∧
    (finishCast L col zB whX whY inf cosOff tpx tid).correctedDistance = num sentinelQ := by
  rw [finishCast, if_pos (show jsStrictEq inf inf = true from rfl)]
  exact ⟨rfl, rfl⟩

lemma finishCast_num_fields (L : Level) (col : ℕ) (zB : List JSNum) (a b d e f : ℚ) (tid : ℤ) :
    (finishCast L col zB (num a) (num b) (num d) (num e) (num f) tid).finiteOutputs := by
  rw [finishCast, if_neg (by simp [jsStrictEq])]
  exact ⟨⟨a, rfl⟩, ⟨b, rfl⟩, ⟨d, rfl⟩, ⟨d * e, rfl⟩, ⟨f, rfl⟩⟩

/-- A horizontal-march result is either the out-of-grid marker or a hit
whose y-coordinate is the march's exact rational y. -/
lemma marchH_hit_form (L : Level) (fd : Bool) (sX : JSNum) :
    ∀ (fuel : ℕ) (X : JSNum) (Y : ℚ) (A B : JSNum),
      marchH L fd sX X Y fuel = some (A, B) →
      (A = inf ∧ B = inf) ∨ ∃ b : ℚ, B = num b := by
  intro fuel
  induction fuel with
  | zero =>
    intro X Y A B h
    simp [marchH] at h
  | succ n ih =>
    intro X Y A B h
    cases fd with
    | true =>
      simp only [marchH, eq_self_iff_true, if_true] at h
      split at h
      · obtain ⟨h1, h2⟩ := Prod.mk.inj (Option.some.inj h)
        exact Or.inl ⟨h1.symm, h2.symm⟩
      · split at h
        · obtain ⟨h1, h2⟩ := Prod.mk.inj (Option.some.inj h)
          exact Or.inr ⟨Y, h2.symm⟩
        · exact ih _ _ _ _ h
    | false =>
      simp only [marchH, Bool.false_eq_true, if_false] at h
      split at h
      · obtain ⟨h1, h2⟩ := Prod.mk.inj (Option.some.inj h)
        exact Or.inl ⟨h1.symm, h2.symm⟩
      · split at h
        · obtain ⟨h1, h2⟩ := Prod.mk.inj (Option.some.inj h)
          exact Or.inr ⟨Y, h2.symm⟩
        · exact ih _ _ _ _ h

/-- A vertical-march result started from a finite y with a finite step is
either the out-of-grid marker or a hit with both coordinates finite. -/
lemma marchV_num_form (L : Level) (fl : Bool) (s : ℚ) :
    ∀ (fuel : ℕ) (X y0 : ℚ) (A B : JSNum),
      marchV L fl (num s) X (num y0) fuel = some (A, B) →
      (A = inf ∧ B = inf) ∨ ∃ a b : ℚ, A = num a ∧ B = num b := by
  intro fuel
  induction fuel with
  | zero =>
    intro X y0 A B h
    simp [marchV] at h
  | succ n ih =>
    intro X y0 A B h
    cases fl with
    | true =>
      simp only [marchV, eq_self_iff_true, if_true] at h
      split at h
      · obtain ⟨h1, h2⟩ := Prod.mk.inj (Option.some.inj h)
        exact Or.inl ⟨h1.symm, h2.symm⟩
      · split at h
        · obtain ⟨h1, h2⟩ := Prod.mk.inj (Option.some.inj h)
          exact Or.inr ⟨X, y0, h1.symm, h2.symm⟩
        · rw [show jsAdd (num y0) (num s) = num (y0 + s) from rfl] at h
          exact ih _ _ _ _ h
    | false =>
      simp only [marchV, Bool.false_eq_true, if_false] at h
      split at h
      · obtain ⟨h1, h2⟩ := Prod.mk.inj (Option.some.inj h)
        exact Or.inl ⟨h1.symm, h2.symm⟩
      · split at h
        · obtain ⟨h1, h2⟩ := Prod.mk.inj (Option.some.inj h)
          exact Or.inr ⟨X, y0, h1.symm, h2.symm⟩
        · rw [show jsAdd (num y0) (num s) = num (y0 + s) from rfl] at h
          exact ih _ _ _ _ h

/-- C6 amended: Ray.cast applies no epsilon-clamping to the degenerate
trigonometric denominator.  Instead, on every cast whose angle-derived
inputs are real numbers (finite tan and cos, as JS Math.tan/Math.cos
return for every angle, exact multiples of pi/2 included), NaN and
Infinity are confined to the no-draw path: either the chosen hit point,
directDistance, correctedDistance and texturePixelX are all finite
non-NaN numbers, or the cast takes the sentinel path, where both
distances are the finite MAX_SAFE_INTEGER sentinel, renderWallStrip draws
nothing, and only the unused hit point and texture column may carry
Infinity or NaN (the counterexample). -/
theorem Ray.cast_nan_confined (L : Level) (x y : ℚ) (fd fl : Bool) (t c : ℚ) (col : ℕ)
    (zB : List JSNum) (r : CastResult)
    (h : Ray.cast L x y fd fl (num t) (num c) col zB = some r) :
    r.finiteOutputs ∨
    (r.directDistance = num sentinelQ ∧ r.correctedDistance = num sentinelQ) := by
  cases hH : marchH L fd (hStepX fl (num t)) (hIntersectionX x y fd (num t)) (hIntersectionY y fd) (L.mapHeight + 2) with
  | none => simp [Ray.cast, hH] at h
  | some p =>
    obtain ⟨hX, hY⟩ := p
    cases hV : marchV L fl (vStepY fd (num t)) (vIntersectionX x fl) (vIntersectionY x y fl (num t)) (L.mapWidth + 2) with
    | none => simp [Ray.cast, hH, hV] at h
    | some q =>
      obtain ⟨vX, vY⟩ := q
      have hHf := marchH_hit_form L fd (hStepX fl (num t)) (L.mapHeight + 2)
        (hIntersectionX x y fd (num t)) (hIntersectionY y fd) hX hY hH
      simp only [Ray.cast, hH, hV] at h
      obtain ⟨s, hsv⟩ := vStepY_num fd t
      rw [hsv, vIntersectionY_num] at hV
      have hVf := marchV_num_form L fl s (L.mapWidth + 2) (vIntersectionX x fl)
        (y + (vIntersectionX x fl - x) * t) vX vY hV
      rcases hVf with ⟨rfl, rfl⟩ | ⟨a, b, rfl, rfl⟩
      · rcases hHf with ⟨rfl, rfl⟩ | ⟨hy, rfl⟩
        · simp only [show jsStrictEq inf inf = true from rfl, if_true] at h
          split at h
          all_goals obtain rfl := Option.some.inj h
          all_goals exact Or.inr (finishCast_inf_fields _ _ _ _ _ _ _ _)
        · cases hX with
          | num ah =>
            simp only [show jsStrictEq inf inf = true from rfl, if_true,
              show ∀ q : ℚ, jsStrictEq (num q) inf = false from fun q => rfl,
              Bool.false_eq_true, if_false, dist_num_num] at h
            split at h
            · obtain rfl := Option.some.inj h
              left
              rw [jsMod_num_tile]
              exact finishCast_num_fields _ _ _ _ _ _ _ _ _
            · obtain rfl := Option.some.inj h
              exact Or.inr (finishCast_inf_fields _ _ _ _ _ _ _ _)
          | inf =>
            simp only [show jsStrictEq inf inf = true from rfl, if_true] at h
            split at h
            all_goals obtain rfl := Option.some.inj h
            all_goals exact Or.inr (finishCast_inf_fields _ _ _ _ _ _ _ _)
          | ninf =>
            simp only [show jsStrictEq inf inf = true from rfl, if_true,
              show jsStrictEq ninf inf = false from rfl, Bool.false_eq_true, if_false,
              dist_ninf_pt] at h
            split at h
            all_goals obtain rfl := Option.some.inj h
            all_goals exact Or.inr (finishCast_inf_fields _ _ _ _ _ _ _ _)
          | nan =>
            simp only [show jsStrictEq inf inf = true from rfl, if_true,
              show jsStrictEq nan inf = false from rfl, Bool.false_eq_true, if_false,
              dist_nan_pt] at h
            rw [jsLt_nan_left] at h
            simp only [Bool.false_eq_true, if_false] at h
            obtain rfl := Option.some.inj h
            exact Or.inr (finishCast_inf_fields _ _ _ _ _ _ _ _)
      · have hdV : (if jsStrictEq (num a) inf = true then inf
            else distanceBetweenPoints (num x) (num y) (num a) (num b)) =
            num (ratSqrt ((a - x) * (a - x) + (b - y) * (b - y))) := by
          rw [show jsStrictEq (num a) inf = false from rfl]
          simp only [Bool.false_eq_true, if_false]
          exact dist_num_num x y a b
        rcases hHf with ⟨rfl, rfl⟩ | ⟨hy, rfl⟩
        · simp only [show jsStrictEq inf inf = true from rfl, if_true, hdV] at h
          rw [jsLt_inf_left] at h
          simp only [Bool.false_eq_true, if_false] at h
          obtain rfl := Option.some.inj h
          left
          rw [jsMod_num_tile]
          exact finishCast_num_fields _ _ _ _ _ _ _ _ _
        · cases hX with
          | num ah =>
            simp only [show ∀ q : ℚ, jsStrictEq (num q) inf = false from fun q => rfl,
              Bool.false_eq_true, if_false, dist_num_num] at h
            split at h
            · obtain rfl := Option.some.inj h
              left
              rw [jsMod_num_tile]
              exact finishCast_num_fields _ _ _ _ _ _ _ _ _
            · obtain rfl := Option.some.inj h
              left
              rw [jsMod_num_tile]
              exact finishCast_num_fields _ _ _ _ _ _ _ _ _
          | inf =>
            simp only [show jsStrictEq inf inf = true from rfl, if_true, hdV] at h
            split at h
            · obtain rfl := Option.some.inj h
              exact Or.inr (finishCast_inf_fields _ _ _ _ _ _ _ _)
            · obtain rfl := Option.some.inj h
              left
              rw [jsMod_num_tile]
              exact finishCast_num_fields _ _ _ _ _ _ _ _ _
          | ninf =>
            simp only [show jsStrictEq ninf inf = false from rfl, Bool.false_eq_true,
              if_false, dist_ninf_pt, hdV] at h
            split at h
            · obtain rfl := Option.some.inj h
              exact Or.inr (finishCast_inf_fields _ _ _ _ _ _ _ _)
            · obtain rfl := Option.some.inj h
              left
              rw [jsMod_num_tile]
              exact finishCast_num_fields _ _ _ _ _ _ _ _ _
          | nan =>
            simp only [show jsStrictEq nan inf = false from rfl, Bool.false_eq_true,
              if_false, dist_nan_pt, hdV] at h
            rw [jsLt_nan_left] at h
            simp only [Bool.false_eq_true, if_false] at h
            obtain rfl := Option.some.inj h
            left
            rw [jsMod_num_tile]
            exact finishCast_num_fields _ _ _ _ _ _ _ _ _

/-- Both marches of the angle-0 cast from (25, 25) on the wall-less
single-tile map leave the grid: the horizontal first crossing is at
-Infinity, and the vertical check column 1 is already outside the
1-wide map. -/
lemma open_marchH_eval :
    marchH openLevel false (hStepX false (num 0)) (hIntersectionX 25 25 false (num 0))
      (hIntersectionY 25 false) (openLevel.mapHeight + 2) = some (inf, inf) := by
  norm_num [marchH, hIntersectionX, hIntersectionY, hStepX, jsAdd, jsDiv, jsFloor,
    jsLt, jsLe, tileSizeQ, show openLevel.mapHeight = 1 from rfl]

lemma open_marchV_eval :
    marchV openLevel false (vStepY false (num 0)) (vIntersectionX 25 false)
      (vIntersectionY 25 25 false (num 0)) (openLevel.mapWidth + 2) = some (inf, inf) := by
  norm_num [marchV, vIntersectionX, vIntersectionY, vStepY, jsAdd, jsMul, jsDiv, jsFloor,
    jsLt, jsLe, tileSizeQ, show openLevel.mapWidth = 1 from rfl,
    show openLevel.mapHeight = 1 from rfl]

/-- Witness for C4: the no-hit cast on the wall-less map yields the
sentinel distances, textureId 0, and the sentinel written at column 3. -/
theorem Ray.cast_depth_write_and_sentinel_witness :
    (Ray.cast openLevel 25 25 false false (num 0) (num 1) 3 [inf, inf, inf, inf]).map
        (fun r => (r.directDistance, r.correctedDistance, r.textureId, r.zBuffer)) =
      some (num sentinelQ, num sentinelQ, (0 : ℤ), [inf, inf, inf, inf].set 3 (num sentinelQ)) :=
  Ray.cast_depth_write_and_sentinel.2 openLevel 25 25 false false (num 0) (num 1) 3
    [inf, inf, inf, inf] open_marchH_eval open_marchV_eval

/-- Witness for C9: a concrete cast at column 3 leaves depth-buffer
entry 0 unchanged. -/
theorem Ray.cast_frame_effects_witness :
    (Ray.cast openLevel 25 25 false false (num 0) (num 1) 3 [inf, inf, inf, inf]).map
        (fun r => r.zBuffer.get? 0) =
      (Ray.cast openLevel 25 25 false false (num 0) (num 1) 3 [inf, inf, inf, inf]).map
        (fun _ => [inf, inf, inf, inf].get? 0) :=
  Ray.cast_frame_effects.1 openLevel 25 25 false false (num 0) (num 1) 3
    [inf, inf, inf, inf] 0 (by decide)

/-- Witness for C5: tile (20, 0) is outside the 15-wide ring map, so
hasCollision treats it as a wall while getTileValue for world coordinates
(1001, 25) — whose tile is exactly (20, 0) — returns 0. -/
theorem Level.isWall_vs_valueAt_witness :
    ringLevel.hasCollision (num ((20 : ℤ) : ℚ)) (num ((0 : ℤ) : ℚ)) = true ∧
    ringLevel.getTileValue (num 1001) (num 25) = 0 := by
  have h := (Level.isWall_vs_valueAt ringLevel (by decide) 20 0).2 (by decide)
  exact ⟨h.1, h.2 1001 25 (by norm_num [tileSizeQ]) (by norm_num [tileSizeQ])⟩

lemma jsLe_not_jsLt (a b : JSNum) (h : jsLe a b = true) : jsLt b a = false := by
  cases a with
  | num qa =>
    cases b with
    | num qb =>
      simp only [jsLe, decide_eq_true_eq] at h
      simp [jsLt, not_lt.mpr h]
    | inf => simp [jsLt]
    | ninf => simp [jsLe] at h
    | nan => simp [jsLe] at h
  | inf =>
    cases b with
    | num qb => simp [jsLe] at h
    | inf => simp [jsLt]
    | ninf => simp [jsLe] at h
    | nan => simp [jsLe] at h
  | ninf =>
    cases b with
    | num qb => simp [jsLt]
    | inf => simp [jsLt]
    | ninf => simp [jsLt]
    | nan => simp [jsLe] at h
  | nan => simp [jsLe] at h

/-- Characterization of the strips emitted by the sprite loop: a strip is
emitted at column c with source column s exactly when c is one of the n
iterated columns, c is on screen, the depth-buffer entry at c is strictly
greater than the sprite's corrected distance, and s is the computed
source texture column. -/
lemma stripLoop_mem (flipped : Bool) (W : ℤ) (left width : ℚ) (corrected : JSNum) :
    ∀ (n : ℕ) (start : ℤ) (zB : List JSNum) (c s : ℤ),
      ((c, s) ∈ (stripLoop flipped W left width corrected n start zB).1 ↔
        (start ≤ c ∧ c < start + n ∧ ¬(c < 0 ∨ canvasWidthZ ≤ c) ∧
         jsLt corrected (zB.getD c.toNat nan) = true ∧
         s = sourceColumn flipped W left width c)) := by
  intro n
  induction n with
  | zero =>
    intro start zB c s
    constructor
    · intro h
      exact absurd h (List.not_mem_nil _)
    · rintro ⟨h1, h2, -⟩
      omega
  | succ n ih =>
    intro start zB c s
    simp only [stripLoop]
    by_cases hclip : start < 0 ∨ canvasWidthZ ≤ start
    · rw [if_pos hclip]
      rw [ih]
      constructor
      · rintro ⟨h1, h2, h3, h4, h5⟩
        exact ⟨by omega, by omega, h3, h4, h5⟩
      · rintro ⟨h1, h2, h3, h4, h5⟩
        rw [not_or] at h3
        refine ⟨?_, by omega, by rw [not_or]; exact h3, h4, h5⟩
        rcases hclip with h | h
        · omega
        · omega
    · rw [if_neg hclip]
      by_cases hz : jsLt corrected (zB.getD start.toNat nan) = true
      · rw [if_pos hz]
        show (c, s) ∈ (start, sourceColumn flipped W left width start) ::
            (stripLoop flipped W left width corrected n (start + 1) zB).1 ↔
          (start ≤ c ∧ c < start + ((n + 1 : ℕ) : ℤ) ∧ ¬(c < 0 ∨ canvasWidthZ ≤ c) ∧
           jsLt corrected (zB.getD c.toNat nan) = true ∧
           s = sourceColumn flipped W left width c)
        rw [List.mem_cons, ih]
        constructor
        · rintro (heq | ⟨h1, h2, h3, h4, h5⟩)
          · have hc : c = start := congrArg Prod.fst heq
            have hs : s = sourceColumn flipped W left width start := congrArg Prod.snd heq
            subst hc
            exact ⟨le_refl _, by omega, hclip, hz, hs⟩
          · exact ⟨by omega, by omega, h3, h4, h5⟩
        · rintro ⟨h1, h2, h3, h4, h5⟩
          by_cases hcs : c = start
          · subst hcs
            left
            rw [h5]
          · right
            exact ⟨by omega, by omega, h3, h4, h5⟩
      · rw [if_neg hz]
        rw [ih]
        constructor
        · rintro ⟨h1, h2, h3, h4, h5⟩
          exact ⟨by omega, by omega, h3, h4, h5⟩
        · rintro ⟨h1, h2, h3, h4, h5⟩
          by_cases hcs : c = start
          · subst hcs
            exact absurd h4 hz
          · exact ⟨by omega, by omega, h3, h4, h5⟩

/-- C1: for a sprite column c covered on screen (between the floors of the
sprite's left edge and right edge) and inside [0, canvasWidth): if the
depth-buffer value stored at c is less than or equal to the sprite's
corrected distance (the JS test `zBuffer[c] > corrected` fails), no strip
is drawn at c; if it is strictly greater, a one-column strip is drawn at c
whose source texture column is the floor of the column's proportion across
the sprite's screen width times the texture width, mirrored when the flip
flag is set and clamped to texture bounds. -/
theorem Sprite.draw_occlusion (flipped : Bool) (W : ℤ) (left width : ℚ) (corrected : JSNum)
    (zB : List JSNum) (c : ℤ)
    (hcov1 : ⌊left⌋ ≤ c) (hcov2 : c < ⌊left + width⌋) (hscr1 : 0 ≤ c) (hscr2 : c < canvasWidthZ) :
    (jsLe (zB.getD c.toNat nan) corrected = true →
      ∀ s : ℤ, (c, s) ∉ (Sprite.draw flipped W left width corrected zB).1) ∧
    (jsLt corrected (zB.getD c.toNat nan) = true →
      (c, sourceColumn flipped W left width c) ∈ (Sprite.draw flipped W left width corrected zB).1) := by
  constructor
  · intro hle s hmem
    rw [Sprite.draw, stripLoop_mem] at hmem
    obtain ⟨-, -, -, h4, -⟩ := hmem
    rw [jsLe_not_jsLt _ _ hle] at h4
    exact absurd h4 (by simp)
  · intro hlt
    rw [Sprite.draw, stripLoop_mem]
    refine ⟨hcov1, by omega, by rw [not_or]; exact ⟨by omega, by omega⟩, hlt, rfl⟩

/-- Witness for C1: with the sprite spanning screen columns [10, 30), an
all-Infinity depth buffer and corrected distance 100, column 15 draws a
strip with the computed source column. -/
theorem Sprite.draw_occlusion_witness :
    ((15 : ℤ), sourceColumn false 64 10 20 15) ∈
      (Sprite.draw false 64 10 20 (num 100) (List.replicate 20 inf)).1 :=
  (Sprite.draw_occlusion false 64 10 20 (num 100) (List.replicate 20 inf) 15
    (by norm_num) (by norm_num) (by norm_num) (by norm_num [canvasWidthZ])).2 (by decide)

/-- Full result of the no-hit angle-0 cast on the wall-less map: both
distances are the sentinel, textureId 0, the hit point Infinite,
texturePixelX NaN, and the sentinel written at column 3. -/
lemma open_cast_eval :
    Ray.cast openLevel 25 25 false false (num 0) (num 1) 3 [inf, inf, inf, inf] =
      some { wallHitX := inf, wallHitY := inf, directDistance := num sentinelQ,
             correctedDistance := num sentinelQ, texturePixelX := nan, textureId := 0,
             level := openLevel, zBuffer := [inf, inf, inf, num sentinelQ] } := by
  simp only [Ray.cast, open_marchH_eval, open_marchV_eval]
  norm_num [jsStrictEq, jsLt, jsMod, finishCast, Level.getTileValue, jsDiv, jsFloor,
    jsLe, tileSizeQ, jsSub, jsAdd, jsNeg,
    show openLevel.mapWidth = 1 from rfl, show openLevel.mapHeight = 1 from rfl]

/-- Witness for C6 amended: the no-hit cast on the wall-less map lands in
the sentinel branch of the disjunction. -/
theorem Ray.cast_nan_confined_witness :
    ({ wallHitX := inf, wallHitY := inf, directDistance := num sentinelQ,
       correctedDistance := num sentinelQ, texturePixelX := nan, textureId := 0,
       level := openLevel, zBuffer := [inf, inf, inf, num sentinelQ] } : CastResult).finiteOutputs ∨
    (({ wallHitX := inf, wallHitY := inf, directDistance := num sentinelQ,
        correctedDistance := num sentinelQ, texturePixelX := nan, textureId := 0,
        level := openLevel, zBuffer := [inf, inf, inf, num sentinelQ] } : CastResult).directDistance = num sentinelQ ∧
     ({ wallHitX := inf, wallHitY := inf, directDistance := num sentinelQ,
        correctedDistance := num sentinelQ, texturePixelX := nan, textureId := 0,
        level := openLevel, zBuffer := [inf, inf, inf, num sentinelQ] } : CastResult).correctedDistance = num sentinelQ) :=
  Ray.cast_nan_confined openLevel 25 25 false false 0 1 3 [inf, inf, inf, inf] _ open_cast_eval
